import Mathlib

/-!
Shallow embedding of the MediNex on-chain core (src/contracts/src): the
model registry, contribution ledger, verification log and token authority.

Conventions of the embedding:
* `Pubkey` (account address) is `Nat`; equality of keys is decidable.
* Rust `f64` fields (accuracy, scores) are embedded as `ℚ`, the idealized
  exact arithmetic of the formulas in the source.
* Rust `u64` counters/amounts are `Nat`, `i64` timestamps are `Int`.
* Each fallible instruction is a pure function returning
  `Except ErrorCode σ`.  The Solana runtime discards every account write
  of an instruction that returns an error, so the state observed after a
  failed call is the original state; `commit` expresses that semantics.
* Anchor `#[account(constraint = ...)]` checks from the instruction
  context structs run before the handler body; they are embedded as the
  leading checks of each function, in source order.
-/

set_option linter.unusedVariables false

namespace MediNex

/-- Account address (Solana `Pubkey`), abstracted to `Nat`. -/
abbrev Pubkey := Nat

/-- Error codes from src/contracts/src/errors.rs, restricted to the
variants the embedded operations use.  `InvalidContributionImprovementValue`
is the name used at the raise site in contribution.rs (errors.rs declares
the variant as `InvalidContributionValue` with message "Invalid
contribution improvement value"); `Unauthorized` is the name used by the
account constraints in lib.rs and contribution.rs. -/
inductive ErrorCode where
  | UnauthorizedAccess
  | Unauthorized
  | InvalidTokenSupply
  | InvalidModelHash
  | InvalidAccuracyValue
  | ContributionAlreadyProcessed
  | InvalidContributionImprovementValue
  | ModelMismatch
  | InvalidDataHash
  | InvalidVerificationMethod
  | InvalidConfidenceScore
  | InvalidTokenAccount
  | RateLimited
  | InvalidAuthorityTransferState
  | AuthorityTransferExpired
deriving DecidableEq, Repr

/-- Status of a contribution (contribution.rs, `ContributionStatus`). -/
inductive ContributionStatus where
  | Pending
  | InReview
  | Approved
  | Rejected
deriving DecidableEq, Repr

/-- Contribution record (contribution.rs, `Contribution`). -/
structure Contribution where
  model : Pubkey
  contributor : Pubkey
  description : String
  contribution_type : String
  accuracy_improvement : ℚ
  performance_improvement : String
  status : ContributionStatus
  reward_amount : Nat
  created_at : Int
  updated_at : Int
  processed_at : Option Int
  contribution_hash : String
  notes : String
deriving DecidableEq, Repr

/-- Model record (model_registry.rs, `ModelRegistry`). -/
structure ModelRegistry where
  name : String
  description : String
  version : String
  model_type : String
  model_hash : String
  accuracy : ℚ
  performance_metrics : String
  authority : Pubkey
  created_at : Int
  updated_at : Int
  contribution_count : Nat
  verification_count : Nat
  avg_confidence_score : ℚ
  usage_count : Nat
  is_verified : Bool
  parent_model : Option Pubkey
deriving DecidableEq, Repr

/-- Token/treasury singleton record (token.rs, `MdnxToken`).  The Rust
field `is_initialized` is embedded as `inited`. -/
structure MdnxToken where
  name : String
  symbol : String
  uri : String
  total_supply : Nat
  authority : Pubkey
  inited : Bool
  last_update_timestamp : Int
  mint : Pubkey
  proposed_authority : Option Pubkey
  authority_proposal_timestamp : Int
  last_mint_timestamp : Int
  treasury : Pubkey
deriving DecidableEq, Repr

/-- Kind of verification attestation (verification.rs, `VerificationType`). -/
inductive VerificationType where
  | MedicalData
  | AnalysisResult
  | ModelOutput
  | ExpertReview
deriving DecidableEq, Repr

/-- Attestation record (verification.rs, `Verification`). -/
structure Verification where
  verification_type : VerificationType
  data_hash : String
  verification_method : String
  confidence_score : ℚ
  verifier : Pubkey
  model : Option Pubkey
  created_at : Int
  metadata : String
  result_details : String
deriving DecidableEq, Repr

/-- State observed after an instruction: the new state on success, the
original state on failure (the runtime rolls every account write back). -/
def commit {σ : Type} (s : σ) : Except ErrorCode σ → σ
  | .ok s2 => s2
  | .error _ => s

namespace model_operations

/-- Embeds `register_model` (model_registry.rs lines 81-124). -/
def register_model (authority : Pubkey) (name description version model_type
    model_hash : String) (accuracy : ℚ) (performance_metrics : String)
    (now : Int) : Except ErrorCode ModelRegistry :=
  if model_hash.length < 16 then .error .InvalidModelHash
  else if accuracy < 0 ∨ accuracy > 1 then .error .InvalidAccuracyValue
  else .ok
    { name := name
      description := description
      version := version
      model_type := model_type
      model_hash := model_hash
      accuracy := accuracy
      performance_metrics := performance_metrics
      authority := authority
      created_at := now
      updated_at := now
      contribution_count := 0
      verification_count := 0
      avg_confidence_score := 0
      usage_count := 0
      is_verified := false
      parent_model := none }

/-- Embeds `update_model` (model_registry.rs lines 127-175) together with
the `has_one = authority` constraint of the `UpdateModel` context
(lib.rs lines 236-243), which runs before the body.  The body overwrites
name/description/version before validating model_hash and accuracy, but a
validation failure aborts the instruction and no partial write survives,
which the `Except` return models exactly. -/
def update_model (m : ModelRegistry) (caller : Pubkey)
    (name description version model_hash : Option String)
    (accuracy : Option ℚ) (performance_metrics : Option String)
    (now : Int) : Except ErrorCode ModelRegistry :=
  if m.authority ≠ caller then .error .UnauthorizedAccess
  else
    let m1 := match name with
      | some v => { m with name := v }
      | none => m
    let m2 := match description with
      | some v => { m1 with description := v }
      | none => m1
    let m3 := match version with
      | some v => { m2 with version := v }
      | none => m2
    let finish : ModelRegistry → Except ErrorCode ModelRegistry := fun m5 =>
      let m6 := match performance_metrics with
        | some v => { m5 with performance_metrics := v }
        | none => m5
      .ok { m6 with updated_at := now }
    let stage_accuracy : ModelRegistry → Except ErrorCode ModelRegistry :=
      fun m4 =>
        match accuracy with
        | some v =>
          if v < 0 ∨ v > 1 then .error .InvalidAccuracyValue
          else finish { m4 with accuracy := v }
        | none => finish m4
    match model_hash with
    | some v =>
      if v.length < 16 then .error .InvalidModelHash
      else stage_accuracy { m3 with model_hash := v }
    | none => stage_accuracy m3

/-- Embeds `verify_model` (model_registry.rs lines 178-190): sets the
verified flag unconditionally, infallible. -/
def verify_model (m : ModelRegistry) (now : Int) : ModelRegistry :=
  { m with is_verified := true, updated_at := now }

/-- Embeds `record_usage` (model_registry.rs lines 193-223). -/
def record_usage (m : ModelRegistry) (confidence_score : ℚ) (now : Int) :
    Except ErrorCode ModelRegistry :=
  if confidence_score < 0 ∨ confidence_score > 1 then
    .error .InvalidConfidenceScore
  else
    let new_count := m.usage_count + 1
    let old_avg := m.avg_confidence_score
    let old_count := new_count - 1
    let new_avg :=
      if old_count = 0 then confidence_score
      else (old_avg * (old_count : ℚ) + confidence_score) / (new_count : ℚ)
    .ok { m with usage_count := new_count, avg_confidence_score := new_avg,
                 updated_at := now }

/-- Embeds `create_derived_model` (model_registry.rs lines 226-271). -/
def create_derived_model (authority parent_key : Pubkey)
    (name description version model_type model_hash : String)
    (accuracy : ℚ) (performance_metrics : String) (now : Int) :
    Except ErrorCode ModelRegistry :=
  if model_hash.length < 16 then .error .InvalidModelHash
  else if accuracy < 0 ∨ accuracy > 1 then .error .InvalidAccuracyValue
  else .ok
    { name := name
      description := description
      version := version
      model_type := model_type
      model_hash := model_hash
      accuracy := accuracy
      performance_metrics := performance_metrics
      authority := authority
      created_at := now
      updated_at := now
      contribution_count := 0
      verification_count := 0
      avg_confidence_score := 0
      usage_count := 0
      is_verified := false
      parent_model := some parent_key }

end model_operations

namespace contribution_operations

open model_operations

/-- Embeds `record_contribution` (contribution.rs lines 87-129): validates
the improvement and the hash, then creates the Pending record and bumps
the model's contribution counter. -/
def record_contribution (m : ModelRegistry) (model_key contributor : Pubkey)
    (description contribution_type : String) (accuracy_improvement : ℚ)
    (performance_improvement contribution_hash : String) (now : Int) :
    Except ErrorCode (Contribution × ModelRegistry) :=
  if accuracy_improvement < 0 ∨ accuracy_improvement > 1 then
    .error .InvalidContributionImprovementValue
  else if contribution_hash.length < 16 then .error .InvalidDataHash
  else .ok
    ({ model := model_key
       contributor := contributor
       description := description
       contribution_type := contribution_type
       accuracy_improvement := accuracy_improvement
       performance_improvement := performance_improvement
       status := .Pending
       reward_amount := 0
       created_at := now
       updated_at := now
       processed_at := none
       contribution_hash := contribution_hash
       notes := "" },
     { m with contribution_count := m.contribution_count + 1 })

/-- Embeds `review_contribution` (contribution.rs lines 132-147): the
`status` argument is accepted but ignored; the body unconditionally
forces the status to `InReview` with no terminal-state guard and no
authorization constraint beyond a signer (`ReviewContribution` context). -/
def review_contribution (c : Contribution) (status : ContributionStatus)
    (notes : String) (now : Int) : Contribution :=
  { c with status := .InReview, notes := notes, updated_at := now }

/-- Embeds `approve_contribution` (contribution.rs lines 150-210) with the
`ApproveContribution` account constraints (lib.rs lines 276-311), which
run first: `contribution.model == model_registry.key()` (ModelMismatch)
and `model_registry.authority == authority.key()` (Unauthorized).  The
result carries the new contribution, the new model, and the reward
transfer delegated to the token program (`none` when reward is 0). -/
def approve_contribution (c : Contribution) (m : ModelRegistry)
    (model_key caller : Pubkey) (reward_amount : Nat) (now : Int) :
    Except ErrorCode (Contribution × ModelRegistry × Option Nat) :=
  if c.model ≠ model_key then .error .ModelMismatch
  else if m.authority ≠ caller then .error .Unauthorized
  else if c.status = .Approved ∨ c.status = .Rejected then
    .error .ContributionAlreadyProcessed
  else if c.model ≠ model_key then .error .ModelMismatch
  else
    let new_accuracy := m.accuracy + c.accuracy_improvement * (1 - m.accuracy)
    let m2 :=
      if c.accuracy_improvement > 0 then { m with accuracy := min new_accuracy 1 }
      else m
    let c2 := { c with status := .Approved
                       reward_amount := reward_amount
                       processed_at := some now
                       updated_at := now }
    let payout := if reward_amount > 0 then some reward_amount else none
    .ok (c2, m2, payout)

/-- Embeds `reject_contribution` (contribution.rs lines 213-234) with the
`RejectContribution` account constraint (contribution.rs lines 249-263):
only `model.authority == authority.key()` is checked; the supplied model
account `model_key` is never compared with `c.model`.  The model record
is not mutated. -/
def reject_contribution (c : Contribution) (m : ModelRegistry)
    (model_key caller : Pubkey) (rejection_reason : String) (now : Int) :
    Except ErrorCode Contribution :=
  if m.authority ≠ caller then .error .Unauthorized
  else if c.status = .Approved ∨ c.status = .Rejected then
    .error .ContributionAlreadyProcessed
  else .ok { c with status := .Rejected
                    notes := rejection_reason
                    processed_at := some now
                    updated_at := now }

end contribution_operations

namespace token_operations

/-- Embeds `initialize_token` (token.rs lines 73-105). -/
def init_token (authority mint_key : Pubkey) (name symbol uri : String)
    (total_supply : Nat) (now : Int) : Except ErrorCode MdnxToken :=
  if total_supply = 0 then .error .InvalidTokenSupply
  else .ok
    { name := name
      symbol := symbol
      uri := uri
      total_supply := total_supply
      authority := authority
      inited := true
      last_update_timestamp := now
      mint := mint_key
      proposed_authority := none
      authority_proposal_timestamp := 0
      last_mint_timestamp := 0
      treasury := authority }

/-- Embeds `propose_authority_transfer` (token.rs lines 108-129). -/
def propose_authority_transfer (t : MdnxToken) (caller new_authority : Pubkey)
    (now : Int) : Except ErrorCode MdnxToken :=
  if t.authority ≠ caller then .error .UnauthorizedAccess
  else .ok { t with proposed_authority := some new_authority
                    authority_proposal_timestamp := now
                    last_update_timestamp := now }

/-- Embeds `accept_authority_transfer` (token.rs lines 132-163). -/
def accept_authority_transfer (t : MdnxToken) (caller : Pubkey) (now : Int) :
    Except ErrorCode MdnxToken :=
  match t.proposed_authority with
  | none => .error .InvalidAuthorityTransferState
  | some p =>
    if p ≠ caller then .error .UnauthorizedAccess
    else if now - t.authority_proposal_timestamp > 86400 then
      .error .AuthorityTransferExpired
    else .ok { t with authority := p
                      proposed_authority := none
                      authority_proposal_timestamp := 0
                      last_update_timestamp := now }

/-- Embeds `cancel_authority_transfer` (token.rs lines 166-186). -/
def cancel_authority_transfer (t : MdnxToken) (caller : Pubkey) (now : Int) :
    Except ErrorCode MdnxToken :=
  if t.authority ≠ caller then .error .UnauthorizedAccess
  else .ok { t with proposed_authority := none
                    authority_proposal_timestamp := 0
                    last_update_timestamp := now }

/-- Embeds `mint_tokens` (token.rs lines 189-227).  The second component
of the result is the amount delegated to the external token ledger's
`mint_to`. -/
def mint_tokens (t : MdnxToken) (caller : Pubkey) (amount : Nat)
    (now : Int) : Except ErrorCode (MdnxToken × Nat) :=
  if t.authority ≠ caller then .error .UnauthorizedAccess
  else if now - t.last_mint_timestamp < 3600 ∧ t.last_mint_timestamp > 0 then
    .error .RateLimited
  else .ok ({ t with last_mint_timestamp := now
                     last_update_timestamp := now }, amount)

/-- Embeds `set_treasury` (token.rs lines 230-250). -/
def set_treasury (t : MdnxToken) (caller new_treasury : Pubkey) (now : Int) :
    Except ErrorCode MdnxToken :=
  if t.authority ≠ caller then .error .UnauthorizedAccess
  else .ok { t with treasury := new_treasury
                    last_update_timestamp := now }

end token_operations

namespace verification_operations

/-- Common body of the four attestation entry points of verification.rs
(`verify_data`, `verify_analysis`, `verify_model_output`,
`expert_verification`), which differ only in the recorded kind and in
whether the model account is mandatory.  `model_acc` carries the supplied
model account's key and state; the second component of the result is the
model after its `verification_count` bump (`none` when no model was
supplied). -/
def verification_body (vt : VerificationType) (verifier : Pubkey)
    (model_acc : Option (Pubkey × ModelRegistry))
    (data_hash verification_method : String) (confidence_score : ℚ)
    (metadata result_details : String) (now : Int) :
    Except ErrorCode (Verification × Option ModelRegistry) :=
  if data_hash.length < 16 then .error .InvalidDataHash
  else if verification_method = "" then .error .InvalidVerificationMethod
  else if confidence_score < 0 ∨ confidence_score > 1 then
    .error .InvalidConfidenceScore
  else .ok
    ({ verification_type := vt
       data_hash := data_hash
       verification_method := verification_method
       confidence_score := confidence_score
       verifier := verifier
       model := model_acc.map Prod.fst
       created_at := now
       metadata := metadata
       result_details := result_details },
     model_acc.map fun pm =>
       { pm.2 with verification_count := pm.2.verification_count + 1 })

/-- Embeds `verify_data` (verification.rs lines 69-113). -/
def verify_data (verifier : Pubkey) (model_acc : Option (Pubkey × ModelRegistry))
    (data_hash verification_method : String) (confidence_score : ℚ)
    (metadata result_details : String) (now : Int) :
    Except ErrorCode (Verification × Option ModelRegistry) :=
  verification_body .MedicalData verifier model_acc data_hash
    verification_method confidence_score metadata result_details now

/-- Embeds `verify_analysis` (verification.rs lines 116-160). -/
def verify_analysis (verifier : Pubkey)
    (model_acc : Option (Pubkey × ModelRegistry))
    (data_hash verification_method : String) (confidence_score : ℚ)
    (metadata result_details : String) (now : Int) :
    Except ErrorCode (Verification × Option ModelRegistry) :=
  verification_body .AnalysisResult verifier model_acc data_hash
    verification_method confidence_score metadata result_details now

/-- Embeds `verify_model_output` (verification.rs lines 163-205); the
model account is mandatory in its context. -/
def verify_model_output (verifier : Pubkey) (model_key : Pubkey)
    (m : ModelRegistry) (data_hash verification_method : String)
    (confidence_score : ℚ) (metadata result_details : String) (now : Int) :
    Except ErrorCode (Verification × Option ModelRegistry) :=
  verification_body .ModelOutput verifier (some (model_key, m)) data_hash
    verification_method confidence_score metadata result_details now

/-- Embeds `expert_verification` (verification.rs lines 208-255). -/
def expert_verification (verifier : Pubkey)
    (model_acc : Option (Pubkey × ModelRegistry))
    (data_hash verification_method : String) (confidence_score : ℚ)
    (metadata result_details : String) (now : Int) :
    Except ErrorCode (Verification × Option ModelRegistry) :=
  verification_body .ExpertReview verifier model_acc data_hash
    verification_method confidence_score metadata result_details now

end verification_operations

/-- Contribution and model states observed after `approve_contribution`:
the pair written on success, the original pair when the instruction
failed and the runtime rolled the writes back. -/
def commitApprove (c : Contribution) (m : ModelRegistry)
    (r : Except ErrorCode (Contribution × ModelRegistry × Option Nat)) :
    Contribution × ModelRegistry :=
  match r with
  | .ok (c2, m2, _) => (c2, m2)
  | .error _ => (c, m)

/-- Model state observed after `record_contribution` (same rollback
semantics). -/
def commitRecord (m : ModelRegistry)
    (r : Except ErrorCode (Contribution × ModelRegistry)) : ModelRegistry :=
  match r with
  | .ok (_, m2) => m2
  | .error _ => m

/-- Token state observed after `mint_tokens` (same rollback semantics). -/
def commitMint (t : MdnxToken) (r : Except ErrorCode (MdnxToken × Nat)) :
    MdnxToken :=
  match r with
  | .ok (t2, _) => t2
  | .error _ => t

/-- A sequence of `record_usage` calls, stopping at the first failure. -/
def record_usages (m : ModelRegistry) (now : Int) :
    List ℚ → Except ErrorCode ModelRegistry
  | [] => .ok m
  | s :: rest =>
    match model_operations.record_usage m s now with
    | .error e => .error e
    | .ok m2 => record_usages m2 now rest

/-- Total confidence weight of a model: the sum of all recorded scores
when `avg_confidence_score` is the running mean.  A model with
`usage_count = 0` has weight 0 (its stored average is never read by
`record_usage`, whose first-use branch overwrites it). -/
def weighted (m : ModelRegistry) : ℚ :=
  if m.usage_count = 0 then 0 else m.avg_confidence_score * (m.usage_count : ℚ)

/-- One core operation applied to an already existing Model record.  This
enumerates every instruction of the program that receives a mutable
`ModelRegistry` account: `update_model`, `verify_model`, `record_usage`,
`record_contribution` (counter bump), `approve_contribution` (accuracy
blend), `reject_contribution` (receives the model read-only, writes
nothing to it) and the four attestation entry points (counter bump,
summarized by their common body with the supplied model present).
`register_model` and `create_derived_model` only initialize fresh
accounts and cannot target an existing one. -/
inductive ModelOp where
  | update (caller : Pubkey) (name description version model_hash : Option String)
      (accuracy : Option ℚ) (performance_metrics : Option String) (now : Int)
  | verify (now : Int)
  | usage (confidence_score : ℚ) (now : Int)
  | contribute (model_key contributor : Pubkey)
      (description contribution_type : String) (accuracy_improvement : ℚ)
      (performance_improvement contribution_hash : String) (now : Int)
  | approve (c : Contribution) (model_key caller : Pubkey)
      (reward_amount : Nat) (now : Int)
  | reject (c : Contribution) (model_key caller : Pubkey)
      (rejection_reason : String) (now : Int)
  | attest (vt : VerificationType) (verifier model_key : Pubkey)
      (data_hash verification_method : String) (confidence_score : ℚ)
      (metadata result_details : String) (now : Int)
deriving DecidableEq, Repr

/-- The model state after running one core operation against it (with
rollback on failure). -/
def ModelOp.apply (m : ModelRegistry) : ModelOp → ModelRegistry
  | .update caller nm ds vr hs ac pf now =>
    commit m (model_operations.update_model m caller nm ds vr hs ac pf now)
  | .verify now => model_operations.verify_model m now
  | .usage s now => commit m (model_operations.record_usage m s now)
  | .contribute mk contributor ds ty imp perf hash now =>
    commitRecord m
      (contribution_operations.record_contribution m mk contributor ds ty imp
        perf hash now)
  | .approve c mk caller reward now =>
    (commitApprove c m
      (contribution_operations.approve_contribution c m mk caller reward now)).2
  | .reject _ _ _ _ _ => m
  | .attest vt verifier mk dh vm s md rd now =>
    match verification_operations.verification_body vt verifier (some (mk, m))
        dh vm s md rd now with
    | .ok (_, some m2) => m2
    | .ok (_, none) => m
    | .error _ => m

/-- The model state after a sequence of core operations. -/
def ModelOp.applyAll (m : ModelRegistry) (ops : List ModelOp) : ModelRegistry :=
  ops.foldl ModelOp.apply m

/-- A concrete registered model used by the witnesses. -/
def sampleModel : ModelRegistry :=
  { name := "imaging"
    description := "demo model"
    version := "1.0.0"
    model_type := "medical_imaging"
    model_hash := "abcdef1234567890"
    accuracy := 4/5
    performance_metrics := "{}"
    authority := 1
    created_at := 0
    updated_at := 0
    contribution_count := 0
    verification_count := 0
    avg_confidence_score := 0
    usage_count := 0
    is_verified := false
    parent_model := none }

/-- A concrete already-approved contribution (against the model at
address 2) used by the witnesses. -/
def sampleApproved : Contribution :=
  { model := 2
    contributor := 3
    description := "demo contribution"
    contribution_type := "data_contribution"
    accuracy_improvement := 1/2
    performance_improvement := "{}"
    status := .Approved
    reward_amount := 100
    created_at := 0
    updated_at := 0
    processed_at := some 0
    contribution_hash := "abcdef1234567890"
    notes := "" }

/-- The same contribution before processing. -/
def samplePending : Contribution :=
  { sampleApproved with status := .Pending, reward_amount := 0,
                        processed_at := none }

/-- A concrete token record with an outstanding authority proposal,
used by the witnesses. -/
def sampleToken : MdnxToken :=
  { name := "MediNex Token"
    symbol := "MDNX"
    uri := "https://example.org/token"
    total_supply := 1000000000
    authority := 1
    inited := true
    last_update_timestamp := 0
    mint := 9
    proposed_authority := some 5
    authority_proposal_timestamp := 0
    last_mint_timestamp := 0
    treasury := 1 }

end MediNex

namespace MediNex

open model_operations contribution_operations token_operations
open verification_operations

/-- Claim C1, counterexample: the claim quantifies over all four
contribution operations, but `review_contribution` carries no
terminal-state guard; on an Approved contribution it still mutates the
record and moves the status back to InReview. -/
theorem C1_counterexample :
    sampleApproved.status = .Approved ∧
    (review_contribution sampleApproved .Approved "second look" 7).status
        = .InReview ∧
    (review_contribution sampleApproved .Approved "second look" 7).status
        ≠ .Approved :=
  ⟨rfl, rfl, by decide⟩

/-- Claim C1 (amended): once a Contribution is Approved or Rejected,
`approve_contribution` and `reject_contribution` always fail and leave
its status (and fields) unchanged, and `record_contribution` only
initializes fresh records; `review_contribution`, however, has no
terminal-state guard and unconditionally resets the status to InReview. -/
theorem C1_amended (c : Contribution) (m : ModelRegistry)
    (model_key caller : Pubkey) (reward : Nat) (reason notes : String)
    (s : ContributionStatus) (now : Int)
    (hterm : c.status = .Approved ∨ c.status = .Rejected) :
    (∃ e, approve_contribution c m model_key caller reward now = .error e) ∧
    (∃ e, reject_contribution c m model_key caller reason now = .error e) ∧
    (commitApprove c m
        (approve_contribution c m model_key caller reward now)).1.status
      = c.status ∧
    (commit c (reject_contribution c m model_key caller reason now)).status
      = c.status ∧
    (review_contribution c s notes now).status = .InReview := by
  have ha : ∃ e, approve_contribution c m model_key caller reward now
      = .error e := by
    unfold contribution_operations.approve_contribution
    split_ifs <;> exact ⟨_, rfl⟩
  have hr : ∃ e, reject_contribution c m model_key caller reason now
      = .error e := by
    unfold contribution_operations.reject_contribution
    split_ifs <;> exact ⟨_, rfl⟩
  obtain ⟨e1, he1⟩ := ha
  obtain ⟨e2, he2⟩ := hr
  exact ⟨⟨e1, he1⟩, ⟨e2, he2⟩, by rw [he1]; rfl, by rw [he2]; rfl, rfl⟩

/-- Witness for C1_amended at a concrete approved contribution. -/
theorem C1_amended_witness :
    (sampleApproved.status = .Approved ∨ sampleApproved.status = .Rejected) ∧
    ((∃ e, approve_contribution sampleApproved sampleModel 2 1 7 5
        = .error e) ∧
     (∃ e, reject_contribution sampleApproved sampleModel 2 1 "dup" 5
        = .error e) ∧
     (commitApprove sampleApproved sampleModel
        (approve_contribution sampleApproved sampleModel 2 1 7 5)).1.status
       = sampleApproved.status ∧
     (commit sampleApproved
        (reject_contribution sampleApproved sampleModel 2 1 "dup" 5)).status
       = sampleApproved.status ∧
     (review_contribution sampleApproved .Pending "again" 5).status
       = .InReview) :=
  ⟨Or.inl rfl,
   C1_amended sampleApproved sampleModel 2 1 7 "dup" "again" .Pending 5
     (Or.inl rfl)⟩

/-- Claim C2: on an already processed (Approved or Rejected) Contribution,
with the matching model account and its authority signing, both
`approve_contribution` and `reject_contribution` fail with
ContributionAlreadyProcessed, and the contribution and model observed
after the failed call equal their values before it. -/
theorem C2_terminal_reentry (c : Contribution) (m : ModelRegistry)
    (model_key caller : Pubkey) (reward : Nat) (reason : String) (now : Int)
    (hterm : c.status = .Approved ∨ c.status = .Rejected)
    (hmk : c.model = model_key) (hauth : m.authority = caller) :
    approve_contribution c m model_key caller reward now
        = .error .ContributionAlreadyProcessed ∧
    reject_contribution c m model_key caller reason now
        = .error .ContributionAlreadyProcessed ∧
    commitApprove c m (approve_contribution c m model_key caller reward now)
        = (c, m) ∧
    commit c (reject_contribution c m model_key caller reason now) = c := by
  have ha : approve_contribution c m model_key caller reward now
      = .error .ContributionAlreadyProcessed := by
    rcases hterm with h | h <;>
      simp [contribution_operations.approve_contribution, hmk, hauth, h]
  have hr : reject_contribution c m model_key caller reason now
      = .error .ContributionAlreadyProcessed := by
    rcases hterm with h | h <;>
      simp [contribution_operations.reject_contribution, hauth, h]
  exact ⟨ha, hr, by rw [ha]; rfl, by rw [hr]; rfl⟩

/-- Witness for C2_terminal_reentry at a concrete approved contribution. -/
theorem C2_terminal_reentry_witness :
    (sampleApproved.status = .Approved ∨ sampleApproved.status = .Rejected) ∧
    sampleApproved.model = 2 ∧ sampleModel.authority = 1 ∧
    (approve_contribution sampleApproved sampleModel 2 1 9 6
        = .error .ContributionAlreadyProcessed ∧
     reject_contribution sampleApproved sampleModel 2 1 "again" 6
        = .error .ContributionAlreadyProcessed ∧
     commitApprove sampleApproved sampleModel
        (approve_contribution sampleApproved sampleModel 2 1 9 6)
        = (sampleApproved, sampleModel) ∧
     commit sampleApproved
        (reject_contribution sampleApproved sampleModel 2 1 "again" 6)
        = sampleApproved) :=
  ⟨Or.inl rfl, rfl, rfl,
   C2_terminal_reentry sampleApproved sampleModel 2 1 9 "again" 6
     (Or.inl rfl) rfl rfl⟩

/-- Characterization of `approve_contribution` on a not-yet-processed
contribution whose account constraints pass: it succeeds, approves the
contribution, blends the accuracy when the improvement is positive, and
delegates the payout when the reward is positive. -/
theorem approve_contribution_nonterminal (c : Contribution)
    (m : ModelRegistry) (model_key caller : Pubkey) (reward : Nat)
    (now : Int) (hterm : ¬(c.status = .Approved ∨ c.status = .Rejected))
    (hmk : c.model = model_key) (hauth : m.authority = caller) :
    approve_contribution c m model_key caller reward now =
      .ok ({ c with status := .Approved, reward_amount := reward,
                    processed_at := some now, updated_at := now },
           (if 0 < c.accuracy_improvement then
              { m with accuracy := min (m.accuracy + c.accuracy_improvement * (1 - m.accuracy)) 1 }
            else m),
           if 0 < reward then some reward else none) := by
  simp [contribution_operations.approve_contribution, hmk, hauth, hterm]

/-- Claim C3: approving a pending contribution with the matching model
and authority sets the model accuracy to
min(old + improvement * (1 - old), 1) when the improvement is positive,
which never decreases the accuracy and never exceeds 1; a zero
improvement leaves the model record entirely unchanged. -/
theorem C3_accuracy_blend (c : Contribution) (m : ModelRegistry)
    (model_key caller : Pubkey) (reward : Nat) (now : Int)
    (hst : c.status = .Pending) (hmk : c.model = model_key)
    (hauth : m.authority = caller)
    (h0 : 0 ≤ m.accuracy) (h1 : m.accuracy ≤ 1) :
    (∃ r, approve_contribution c m model_key caller reward now = .ok r) ∧
    (0 < c.accuracy_improvement → c.accuracy_improvement ≤ 1 →
      (commitApprove c m
          (approve_contribution c m model_key caller reward now)).2.accuracy
        = min (m.accuracy + c.accuracy_improvement * (1 - m.accuracy)) 1 ∧
      m.accuracy ≤ (commitApprove c m
          (approve_contribution c m model_key caller reward now)).2.accuracy ∧
      (commitApprove c m
          (approve_contribution c m model_key caller reward now)).2.accuracy
        ≤ 1) ∧
    (c.accuracy_improvement = 0 →
      (commitApprove c m
          (approve_contribution c m model_key caller reward now)).2 = m) := by
  have hterm : ¬(c.status = .Approved ∨ c.status = .Rejected) := by
    simp [hst]
  have heq := approve_contribution_nonterminal c m model_key caller reward
    now hterm hmk hauth
  refine ⟨⟨_, heq⟩, ?_, ?_⟩
  · intro hpos hle
    have hca : (commitApprove c m
        (approve_contribution c m model_key caller reward now)).2.accuracy
        = min (m.accuracy + c.accuracy_improvement * (1 - m.accuracy)) 1 := by
      rw [heq]
      simp [commitApprove, if_pos hpos]
    refine ⟨hca, ?_, ?_⟩
    · rw [hca]
      refine le_min ?_ h1
      nlinarith [mul_nonneg hpos.le (by linarith : (0:ℚ) ≤ 1 - m.accuracy)]
    · rw [hca]
      exact min_le_right _ _
  · intro hz
    rw [heq]
    simp [commitApprove, hz]

/-- Witness for C3_accuracy_blend: the spec scenario, a model at
accuracy 4/5 approving a pending contribution with improvement 1/2. -/
theorem C3_accuracy_blend_witness :
    samplePending.status = .Pending ∧ samplePending.model = 2 ∧
    sampleModel.authority = 1 ∧
    (0:ℚ) ≤ sampleModel.accuracy ∧ sampleModel.accuracy ≤ 1 ∧
    ((∃ r, approve_contribution samplePending sampleModel 2 1 100 5
        = .ok r) ∧
     (0 < samplePending.accuracy_improvement →
       samplePending.accuracy_improvement ≤ 1 →
       (commitApprove samplePending sampleModel
           (approve_contribution samplePending sampleModel 2 1 100 5)).2.accuracy
         = min (sampleModel.accuracy
             + samplePending.accuracy_improvement
               * (1 - sampleModel.accuracy)) 1 ∧
       sampleModel.accuracy ≤ (commitApprove samplePending sampleModel
           (approve_contribution samplePending sampleModel 2 1 100 5)).2.accuracy ∧
       (commitApprove samplePending sampleModel
           (approve_contribution samplePending sampleModel 2 1 100 5)).2.accuracy
         ≤ 1) ∧
     (samplePending.accuracy_improvement = 0 →
       (commitApprove samplePending sampleModel
           (approve_contribution samplePending sampleModel 2 1 100 5)).2
         = sampleModel)) :=
  ⟨rfl, rfl, rfl, by norm_num [sampleModel], by norm_num [sampleModel],
   C3_accuracy_blend samplePending sampleModel 2 1 100 5 rfl rfl rfl
     (by norm_num [sampleModel]) (by norm_num [sampleModel])⟩

/-- Claim C7: `record_contribution` rejects an improvement outside [0,1]
with InvalidContributionImprovementValue and (for a valid improvement) a
hash shorter than 16 characters with InvalidDataHash, mutating nothing on
failure; on success it creates the Pending contribution with zero reward,
no processed timestamp and empty notes, and bumps only the model's
contribution counter. -/
theorem C7_record_contribution (m : ModelRegistry)
    (model_key contributor : Pubkey) (ds ty : String) (imp : ℚ)
    (perf hash : String) (now : Int) :
    ((imp < 0 ∨ 1 < imp) →
      record_contribution m model_key contributor ds ty imp perf hash now
        = .error .InvalidContributionImprovementValue) ∧
    (0 ≤ imp → imp ≤ 1 → hash.length < 16 →
      record_contribution m model_key contributor ds ty imp perf hash now
        = .error .InvalidDataHash) ∧
    (∀ e, record_contribution m model_key contributor ds ty imp perf hash now
          = .error e →
      commitRecord m
        (record_contribution m model_key contributor ds ty imp perf hash now)
        = m) ∧
    (0 ≤ imp → imp ≤ 1 → 16 ≤ hash.length →
      ∃ cn m2,
        record_contribution m model_key contributor ds ty imp perf hash now
          = .ok (cn, m2) ∧
        cn.status = .Pending ∧ cn.reward_amount = 0 ∧
        cn.processed_at = none ∧ cn.notes = "" ∧
        cn.model = model_key ∧ cn.contributor = contributor ∧
        m2 = { m with contribution_count := m.contribution_count + 1 }) := by
  refine ⟨?_, ?_, ?_, ?_⟩
  · intro h
    simp [contribution_operations.record_contribution, h]
  · intro h0 h1 hlen
    have hnc : ¬(imp < 0 ∨ imp > 1) := by push_neg; exact ⟨h0, h1⟩
    simp [contribution_operations.record_contribution, hnc, hlen]
  · intro e he
    simp [commitRecord, he]
  · intro h0 h1 hlen
    have hnc : ¬(imp < 0 ∨ imp > 1) := by push_neg; exact ⟨h0, h1⟩
    have hok : record_contribution m model_key contributor ds ty imp perf
        hash now
        = .ok ({ model := model_key, contributor := contributor,
                 description := ds, contribution_type := ty,
                 accuracy_improvement := imp,
                 performance_improvement := perf, status := .Pending,
                 reward_amount := 0, created_at := now, updated_at := now,
                 processed_at := none, contribution_hash := hash,
                 notes := "" },
               { m with contribution_count := m.contribution_count + 1 }) := by
      simp [contribution_operations.record_contribution, hnc,
        not_lt.mpr hlen]
    exact ⟨_, _, hok, rfl, rfl, rfl, rfl, rfl, rfl, rfl⟩

/-- Witness for C7_record_contribution: an out-of-range improvement is
rejected, and a valid recording against the sample model succeeds with
the stated initial fields. -/
theorem C7_record_contribution_witness :
    record_contribution sampleModel 2 3 "d" "data_contribution" (3/2) "{}"
        "abcdef1234567890" 5
      = .error .InvalidContributionImprovementValue ∧
    (∃ cn m2,
      record_contribution sampleModel 2 3 "d" "data_contribution" (1/2) "{}"
          "abcdef1234567890" 5
        = .ok (cn, m2) ∧
      cn.status = .Pending ∧ cn.reward_amount = 0 ∧
      cn.processed_at = none ∧ cn.notes = "" ∧
      cn.model = 2 ∧ cn.contributor = 3 ∧
      m2 = { sampleModel with
              contribution_count := sampleModel.contribution_count + 1 }) :=
  ⟨(C7_record_contribution sampleModel 2 3 "d" "data_contribution" (3/2)
      "{}" "abcdef1234567890" 5).1 (by norm_num),
   (C7_record_contribution sampleModel 2 3 "d" "data_contribution" (1/2)
      "{}" "abcdef1234567890" 5).2.2.2 (by norm_num) (by norm_num)
     (by decide)⟩

/-- Claim C9: `reject_contribution` never compares the supplied Model
account with the Contribution's recorded model: rejection of any
non-terminal contribution succeeds with the model authority signing even
when the model address differs from `c.model`, and no input whatsoever
makes it fail with ModelMismatch. -/
theorem C9_reject_no_model_check (c : Contribution) (m : ModelRegistry)
    (model_key caller : Pubkey) (reason : String) (now : Int)
    (hterm : ¬(c.status = .Approved ∨ c.status = .Rejected))
    (hauth : m.authority = caller) (hne : model_key ≠ c.model) :
    (∃ c2, reject_contribution c m model_key caller reason now = .ok c2 ∧
        c2.status = .Rejected) ∧
    (∀ (c2 : Contribution) (m2 : ModelRegistry) (mk2 caller2 : Pubkey)
        (reason2 : String) (now2 : Int),
        reject_contribution c2 m2 mk2 caller2 reason2 now2
          ≠ .error .ModelMismatch) := by
  constructor
  · have hok : reject_contribution c m model_key caller reason now
        = .ok { c with status := .Rejected, notes := reason,
                       processed_at := some now, updated_at := now } := by
      simp [contribution_operations.reject_contribution, hauth, hterm]
    exact ⟨_, hok, rfl⟩
  · intro c2 m2 mk2 caller2 reason2 now2
    unfold contribution_operations.reject_contribution
    split_ifs <;> simp

/-- Witness for C9_reject_no_model_check: rejecting a pending
contribution recorded against model address 2 while supplying the model
account at address 4 still succeeds. -/
theorem C9_reject_no_model_check_witness :
    ¬(samplePending.status = .Approved ∨ samplePending.status = .Rejected) ∧
    sampleModel.authority = 1 ∧ (4 : Pubkey) ≠ samplePending.model ∧
    ((∃ c2, reject_contribution samplePending sampleModel 4 1 "bad data" 5
        = .ok c2 ∧ c2.status = .Rejected) ∧
     (∀ (c2 : Contribution) (m2 : ModelRegistry) (mk2 caller2 : Pubkey)
        (reason2 : String) (now2 : Int),
        reject_contribution c2 m2 mk2 caller2 reason2 now2
          ≠ .error .ModelMismatch)) :=
  ⟨by decide, rfl, by decide,
   C9_reject_no_model_check samplePending sampleModel 4 1 "bad data" 5
     (by decide) rfl (by decide)⟩

/-- One valid `record_usage` call increments the usage counter and adds
the score to the model's total confidence weight. -/
theorem record_usage_weighted (m : ModelRegistry) (s : ℚ) (now : Int)
    (h0 : 0 ≤ s) (h1 : s ≤ 1) :
    ∃ m2, record_usage m s now = .ok m2 ∧
      m2.usage_count = m.usage_count + 1 ∧
      weighted m2 = weighted m + s := by
  have hnc : ¬(s < 0 ∨ s > 1) := by push_neg; exact ⟨h0, h1⟩
  unfold model_operations.record_usage
  rw [if_neg hnc]
  refine ⟨_, rfl, rfl, ?_⟩
  have hsub : m.usage_count + 1 - 1 = m.usage_count := by omega
  rcases Nat.eq_zero_or_pos m.usage_count with hk | hk
  · simp [weighted, hsub, hk]
  · have hk0 : m.usage_count ≠ 0 := hk.ne'
    have hc : ((m.usage_count : ℚ) + 1) ≠ 0 := by positivity
    simp [weighted, hsub, hk0]
    exact div_mul_cancel₀ _ hc

/-- Folding valid `record_usage` calls over a list of scores succeeds,
adds the list length to the counter and the list sum to the total
confidence weight. -/
theorem record_usages_spec (now : Int) :
    ∀ (scores : List ℚ) (m : ModelRegistry),
      (∀ x ∈ scores, 0 ≤ x ∧ x ≤ 1) →
      ∃ m2, record_usages m now scores = .ok m2 ∧
        m2.usage_count = m.usage_count + scores.length ∧
        weighted m2 = weighted m + scores.sum := by
  intro scores
  induction scores with
  | nil =>
    intro m hv
    exact ⟨m, rfl, by simp, by simp⟩
  | cons s rest ih =>
    intro m hv
    obtain ⟨m1, hok1, hcount1, hw1⟩ :=
      record_usage_weighted m s now (hv s (by simp)).1 (hv s (by simp)).2
    obtain ⟨m2, hok2, hcount2, hw2⟩ :=
      ih m1 (fun x hx => hv x (by simp [hx]))
    refine ⟨m2, ?_, ?_, ?_⟩
    · simp [record_usages, hok1, hok2]
    · rw [hcount2, hcount1, List.length_cons]
      ring
    · rw [hw2, hw1, List.sum_cons]
      ring

/-- Claim C4: `record_usage` fails with InvalidConfidenceScore exactly
when the score is outside [0,1], leaving the model unchanged; a valid
score increments usage_count; and after any nonempty sequence of
successful calls with scores s1..sn on a freshly registered model
(usage_count 0), avg_confidence_score equals (s1+...+sn)/n. -/
theorem C4_record_usage (m : ModelRegistry) (s : ℚ) (now : Int)
    (m0 : ModelRegistry) (scores : List ℚ)
    (hfresh : m0.usage_count = 0)
    (hvalid : ∀ x ∈ scores, 0 ≤ x ∧ x ≤ 1) (hne : scores ≠ []) :
    (record_usage m s now = .error .InvalidConfidenceScore ↔
      (s < 0 ∨ 1 < s)) ∧
    ((s < 0 ∨ 1 < s) → commit m (record_usage m s now) = m) ∧
    (0 ≤ s → s ≤ 1 → ∃ m2, record_usage m s now = .ok m2 ∧
      m2.usage_count = m.usage_count + 1) ∧
    (∃ mn, record_usages m0 now scores = .ok mn ∧
      mn.usage_count = scores.length ∧
      mn.avg_confidence_score = scores.sum / (scores.length : ℚ)) := by
  refine ⟨?_, ?_, ?_, ?_⟩
  · unfold model_operations.record_usage
    split_ifs with h
    · exact iff_of_true rfl h
    · exact iff_of_false (by simp) h
  · intro h
    have he : record_usage m s now = .error .InvalidConfidenceScore := by
      simp [model_operations.record_usage, h]
    rw [he]
    rfl
  · intro h0 h1
    obtain ⟨m2, hok, hcount, _⟩ := record_usage_weighted m s now h0 h1
    exact ⟨m2, hok, hcount⟩
  · obtain ⟨mn, hok, hcount, hw⟩ := record_usages_spec now scores m0 hvalid
    have hlen : scores.length ≠ 0 := fun h => hne (List.length_eq_zero.mp h)
    have hcast : ((scores.length : Nat) : ℚ) ≠ 0 := Nat.cast_ne_zero.mpr hlen
    have hcount2 : mn.usage_count = scores.length := by
      rw [hcount, hfresh, zero_add]
    have hw0 : weighted m0 = 0 := by simp [weighted, hfresh]
    have hwn : weighted mn = scores.sum := by rw [hw, hw0, zero_add]
    have hnz : mn.usage_count ≠ 0 := by rw [hcount2]; exact hlen
    have hms : mn.avg_confidence_score * (scores.length : ℚ) = scores.sum := by
      rw [weighted, if_neg hnz, hcount2] at hwn
      exact hwn
    refine ⟨mn, hok, hcount2, ?_⟩
    rw [eq_div_iff hcast]
    exact hms

/-- Witness for C4_record_usage: on the sample model, recording the
scores 1/2 and 1 yields usage_count 2 and average (1/2 + 1) / 2. -/
theorem C4_record_usage_witness :
    ∃ mn, record_usages sampleModel 5 [1/2, 1] = .ok mn ∧
      mn.usage_count = ([1/2, 1] : List ℚ).length ∧
      mn.avg_confidence_score
        = ([1/2, 1] : List ℚ).sum / ((([1/2, 1] : List ℚ).length : Nat) : ℚ) :=
  (C4_record_usage sampleModel 2 5 sampleModel [1/2, 1] rfl
    (by
      intro x hx
      simp only [List.mem_cons, List.mem_singleton, List.not_mem_nil,
        or_false] at hx
      rcases hx with rfl | rfl <;> norm_num)
    (by simp)).2.2.2

/-- Claim C5: `accept_authority_transfer` fails with
InvalidAuthorityTransferState when no proposal exists, with
UnauthorizedAccess when the caller is not the proposed authority, and
with AuthorityTransferExpired when the proposal is older than 86400
seconds; on success the authority becomes the proposed authority and the
proposal is cleared; every failing path leaves the authority unchanged. -/
theorem C5_accept_authority_transfer (t : MdnxToken) (caller : Pubkey)
    (now : Int) :
    (t.proposed_authority = none →
      accept_authority_transfer t caller now
        = .error .InvalidAuthorityTransferState) ∧
    (∀ p, t.proposed_authority = some p → p ≠ caller →
      accept_authority_transfer t caller now
        = .error .UnauthorizedAccess) ∧
    (∀ p, t.proposed_authority = some p → p = caller →
      86400 < now - t.authority_proposal_timestamp →
      accept_authority_transfer t caller now
        = .error .AuthorityTransferExpired) ∧
    (∀ p, t.proposed_authority = some p → p = caller →
      now - t.authority_proposal_timestamp ≤ 86400 →
      ∃ t2, accept_authority_transfer t caller now = .ok t2 ∧
        t2.authority = p ∧ t2.proposed_authority = none) ∧
    (∀ e, accept_authority_transfer t caller now = .error e →
      (commit t (accept_authority_transfer t caller now)).authority
        = t.authority) := by
  refine ⟨?_, ?_, ?_, ?_, ?_⟩
  · intro h
    simp [token_operations.accept_authority_transfer, h]
  · intro p hp hne
    simp [token_operations.accept_authority_transfer, hp, hne]
  · intro p hp hpc hexp
    simp [token_operations.accept_authority_transfer, hp, hpc, hexp]
  · intro p hp hpc hle
    have hnx : ¬(86400 < now - t.authority_proposal_timestamp) :=
      not_lt.mpr hle
    have hok : accept_authority_transfer t caller now
        = .ok { t with authority := p, proposed_authority := none,
                       authority_proposal_timestamp := 0,
                       last_update_timestamp := now } := by
      simp [token_operations.accept_authority_transfer, hp, hpc, hnx]
    exact ⟨_, hok, rfl, rfl⟩
  · intro e he
    simp [commit, he]

/-- Witness for C5_accept_authority_transfer on the sample token, whose
proposed authority is 5 with proposal timestamp 0: acceptance by 5 at
time 100 succeeds, at time 86401 fails expired, and by 4 fails
unauthorized. -/
theorem C5_accept_authority_transfer_witness :
    (∃ t2, accept_authority_transfer sampleToken 5 100 = .ok t2 ∧
      t2.authority = 5 ∧ t2.proposed_authority = none) ∧
    accept_authority_transfer sampleToken 5 86401
      = .error .AuthorityTransferExpired ∧
    accept_authority_transfer sampleToken 4 100
      = .error .UnauthorizedAccess :=
  ⟨(C5_accept_authority_transfer sampleToken 5 100).2.2.2.1 5 rfl rfl
     (by norm_num [sampleToken]),
   (C5_accept_authority_transfer sampleToken 5 86401).2.2.1 5 rfl rfl
     (by norm_num [sampleToken]),
   (C5_accept_authority_transfer sampleToken 4 100).2.1 5 rfl
     (by norm_num)⟩

/-- Claim C6: for the current authority, `mint_tokens` fails RateLimited
exactly when a previous mint happened (positive last_mint_timestamp) less
than 3600 seconds ago, leaves the record unchanged on failure, and stamps
last_mint_timestamp with the current time on success; hence from a fresh
token two mints less than 3600 seconds apart fail the second time, while
mints at least 3600 seconds apart both succeed. -/
theorem C6_mint_rate_limit (t t0 : MdnxToken) (caller : Pubkey)
    (a1 a2 : Nat) (t1 t2 : Int)
    (hauth : t.authority = caller) (hauth0 : t0.authority = caller)
    (hfresh : t0.last_mint_timestamp = 0) (hpos : 0 < t1) :
    (mint_tokens t caller a1 t1 = .error .RateLimited ↔
      0 < t.last_mint_timestamp ∧ t1 - t.last_mint_timestamp < 3600) ∧
    (∀ e, mint_tokens t caller a1 t1 = .error e →
      commitMint t (mint_tokens t caller a1 t1) = t) ∧
    (∀ u w, mint_tokens t caller a1 t1 = .ok (u, w) →
      u.last_mint_timestamp = t1 ∧ w = a1) ∧
    (t2 - t1 < 3600 →
      ∃ u, mint_tokens t0 caller a1 t1 = .ok (u, a1) ∧
        mint_tokens u caller a2 t2 = .error .RateLimited) ∧
    (3600 ≤ t2 - t1 →
      ∃ u v, mint_tokens t0 caller a1 t1 = .ok (u, a1) ∧
        mint_tokens u caller a2 t2 = .ok (v, a2)) := by
  have hbody : mint_tokens t caller a1 t1
      = if t1 - t.last_mint_timestamp < 3600 ∧ 0 < t.last_mint_timestamp
        then .error .RateLimited
        else .ok ({ t with last_mint_timestamp := t1,
                           last_update_timestamp := t1 }, a1) := by
    simp [token_operations.mint_tokens, hauth]
  have hbody0 : mint_tokens t0 caller a1 t1
      = .ok ({ t0 with last_mint_timestamp := t1,
                       last_update_timestamp := t1 }, a1) := by
    simp [token_operations.mint_tokens, hauth0, hfresh]
  refine ⟨?_, ?_, ?_, ?_, ?_⟩
  · rw [hbody]
    split_ifs with h
    · exact iff_of_true rfl ⟨h.2, h.1⟩
    · exact iff_of_false (by simp) fun hc => h ⟨hc.2, hc.1⟩
  · intro e he
    simp [commitMint, he]
  · intro u w hok
    rw [hbody] at hok
    split_ifs at hok
    simp only [Except.ok.injEq, Prod.mk.injEq] at hok
    exact ⟨by rw [← hok.1], hok.2.symm⟩
  · intro hlt
    refine ⟨_, hbody0, ?_⟩
    simp [token_operations.mint_tokens, hauth0, hlt, hpos]
  · intro hge
    refine ⟨_, { t0 with last_mint_timestamp := t2,
                         last_update_timestamp := t2 }, hbody0, ?_⟩
    simp [token_operations.mint_tokens, hauth0, not_lt.mpr hge]

set_option maxHeartbeats 1000000 in
/-- Frame of a successful `update_model`: the authority, timestamps of
creation, counters, statistics, verified flag and parent reference are
untouched; each provided optional field is overwritten and each omitted
one kept; updated_at is refreshed. -/
theorem update_model_ok_frame (m : ModelRegistry) (caller : Pubkey)
    (nm ds vr hs : Option String) (ac : Option ℚ) (pm : Option String)
    (now : Int) (m2 : ModelRegistry)
    (hok : update_model m caller nm ds vr hs ac pm now = .ok m2) :
    m2.authority = m.authority ∧ m2.created_at = m.created_at ∧
    m2.contribution_count = m.contribution_count ∧
    m2.verification_count = m.verification_count ∧
    m2.avg_confidence_score = m.avg_confidence_score ∧
    m2.usage_count = m.usage_count ∧
    m2.is_verified = m.is_verified ∧
    m2.parent_model = m.parent_model ∧
    m2.updated_at = now ∧
    (nm = none → m2.name = m.name) ∧ (∀ x, nm = some x → m2.name = x) ∧
    (ds = none → m2.description = m.description) ∧
    (∀ x, ds = some x → m2.description = x) ∧
    (vr = none → m2.version = m.version) ∧
    (∀ x, vr = some x → m2.version = x) ∧
    (hs = none → m2.model_hash = m.model_hash) ∧
    (∀ x, hs = some x → m2.model_hash = x) ∧
    (ac = none → m2.accuracy = m.accuracy) ∧
    (∀ x, ac = some x → m2.accuracy = x) ∧
    (pm = none → m2.performance_metrics = m.performance_metrics) ∧
    (∀ x, pm = some x → m2.performance_metrics = x) := by
  by_cases hca : m.authority = caller
  · rcases nm with _ | nv <;> rcases ds with _ | dv <;>
      rcases vr with _ | vv <;> rcases hs with _ | hv <;>
      rcases ac with _ | av <;> rcases pm with _ | pv <;>
      simp [model_operations.update_model, hca] at hok <;>
      (try split_ifs at hok) <;>
      (try simp at hok) <;>
      (try subst hok) <;>
      simp [hca]
  · simp [model_operations.update_model, hca] at hok

/-- Claim C8: `update_model` requires the model authority (else
UnauthorizedAccess), re-validates a provided model_hash (InvalidModelHash
below 16 characters) and a provided accuracy (InvalidAccuracyValue
outside [0,1]), changes nothing on any failure, and on success overwrites
exactly the provided optional fields, keeps every omitted field as well
as the counters, statistics, verified flag, parent, authority and
created_at, and refreshes only updated_at. -/
theorem C8_update_model (m : ModelRegistry) (caller : Pubkey)
    (nm ds vr hs : Option String) (ac : Option ℚ) (pm : Option String)
    (now : Int) :
    (m.authority ≠ caller →
      update_model m caller nm ds vr hs ac pm now
        = .error .UnauthorizedAccess) ∧
    (m.authority = caller → ∀ hv, hs = some hv → hv.length < 16 →
      update_model m caller nm ds vr hs ac pm now
        = .error .InvalidModelHash) ∧
    (m.authority = caller → ∀ av, ac = some av → (av < 0 ∨ 1 < av) →
      (∀ hv, hs = some hv → 16 ≤ hv.length) →
      update_model m caller nm ds vr hs ac pm now
        = .error .InvalidAccuracyValue) ∧
    (∀ e, update_model m caller nm ds vr hs ac pm now = .error e →
      commit m (update_model m caller nm ds vr hs ac pm now) = m) ∧
    (∀ m2, update_model m caller nm ds vr hs ac pm now = .ok m2 →
      m2.authority = m.authority ∧ m2.created_at = m.created_at ∧
      m2.contribution_count = m.contribution_count ∧
      m2.verification_count = m.verification_count ∧
      m2.avg_confidence_score = m.avg_confidence_score ∧
      m2.usage_count = m.usage_count ∧
      m2.is_verified = m.is_verified ∧
      m2.parent_model = m.parent_model ∧
      m2.updated_at = now ∧
      (nm = none → m2.name = m.name) ∧ (∀ x, nm = some x → m2.name = x) ∧
      (ds = none → m2.description = m.description) ∧
      (∀ x, ds = some x → m2.description = x) ∧
      (vr = none → m2.version = m.version) ∧
      (∀ x, vr = some x → m2.version = x) ∧
      (hs = none → m2.model_hash = m.model_hash) ∧
      (∀ x, hs = some x → m2.model_hash = x) ∧
      (ac = none → m2.accuracy = m.accuracy) ∧
      (∀ x, ac = some x → m2.accuracy = x) ∧
      (pm = none → m2.performance_metrics = m.performance_metrics) ∧
      (∀ x, pm = some x → m2.performance_metrics = x)) := by
  refine ⟨?_, ?_, ?_, ?_, ?_⟩
  · intro h
    simp [model_operations.update_model, h]
  · intro hca hv hhs hlen
    subst hhs
    simp [model_operations.update_model, hca, hlen]
  · intro hca av hac hav hhs
    subst hac
    rcases hs with _ | hv
    · simp [model_operations.update_model, hca, hav]
    · have hnl : ¬(hv.length < 16) := not_lt.mpr (hhs hv rfl)
      simp [model_operations.update_model, hca, hnl, hav]
  · intro e he
    simp [commit, he]
  · intro m2 hok
    exact update_model_ok_frame m caller nm ds vr hs ac pm now m2 hok

/-- Witness for C8_update_model: on the sample model (authority 1), a
call by 2 is unauthorized, a provided 5-character hash is rejected, and a
provided accuracy of 3/2 is rejected. -/
theorem C8_update_model_witness :
    update_model sampleModel 2 none none none none none none 9
      = .error .UnauthorizedAccess ∧
    update_model sampleModel 1 none none none (some "short") none none 9
      = .error .InvalidModelHash ∧
    update_model sampleModel 1 none none none (some "0123456789abcdef")
        (some (3/2)) none 9
      = .error .InvalidAccuracyValue :=
  ⟨(C8_update_model sampleModel 2 none none none none none none 9).1
     (by decide),
   (C8_update_model sampleModel 1 none none none (some "short") none none
      9).2.1 rfl "short" rfl (by decide),
   (C8_update_model sampleModel 1 none none none
      (some "0123456789abcdef") (some (3/2)) none 9).2.2.1 rfl (3/2) rfl
     (Or.inr (by norm_num))
     (by intro hv h; injection h with h2; subst h2; decide)⟩

/-- Witness for C6_mint_rate_limit on the sample token: mints by the
authority at times 1000 and 2000 hit the rate limit the second time,
while mints at 1000 and 8000 both succeed. -/
theorem C6_mint_rate_limit_witness :
    (∃ u, mint_tokens sampleToken 1 5 1000 = .ok (u, 5) ∧
      mint_tokens u 1 7 2000 = .error .RateLimited) ∧
    (∃ u v, mint_tokens sampleToken 1 5 1000 = .ok (u, 5) ∧
      mint_tokens u 1 7 8000 = .ok (v, 7)) :=
  ⟨(C6_mint_rate_limit sampleToken sampleToken 1 5 7 1000 2000 rfl rfl rfl
      (by norm_num)).2.2.2.1 (by norm_num),
   (C6_mint_rate_limit sampleToken sampleToken 1 5 7 1000 8000 rfl rfl rfl
      (by norm_num)).2.2.2.2 (by norm_num)⟩

/-- `update_model` (with rollback on failure) never changes the verified
flag. -/
theorem update_model_commit_is_verified (m : ModelRegistry) (caller : Pubkey)
    (nm ds vr hs : Option String) (ac : Option ℚ) (pm : Option String)
    (now : Int) :
    (commit m (update_model m caller nm ds vr hs ac pm now)).is_verified
      = m.is_verified := by
  rcases hr : update_model m caller nm ds vr hs ac pm now with e | m2
  · rw [commit]
  · rw [commit]
    exact (update_model_ok_frame m caller nm ds vr hs ac pm now m2
      hr).2.2.2.2.2.2.1

/-- `record_usage` (with rollback on failure) never changes the verified
flag. -/
theorem record_usage_commit_is_verified (m : ModelRegistry) (s : ℚ)
    (now : Int) :
    (commit m (record_usage m s now)).is_verified = m.is_verified := by
  unfold model_operations.record_usage
  split_ifs <;> rfl

/-- `record_contribution` (with rollback on failure) never changes the
model's verified flag. -/
theorem record_contribution_commit_is_verified (m : ModelRegistry)
    (mk contributor : Pubkey) (ds ty : String) (imp : ℚ)
    (perf hash : String) (now : Int) :
    (commitRecord m
      (record_contribution m mk contributor ds ty imp perf hash now)).is_verified
      = m.is_verified := by
  unfold contribution_operations.record_contribution
  split_ifs <;> rfl

/-- `approve_contribution` (with rollback on failure) never changes the
model's verified flag. -/
theorem approve_commit_is_verified (c : Contribution) (m : ModelRegistry)
    (mk caller : Pubkey) (reward : Nat) (now : Int) :
    (commitApprove c m
      (approve_contribution c m mk caller reward now)).2.is_verified
      = m.is_verified := by
  simp only [contribution_operations.approve_contribution]
  split_ifs <;> rfl

/-- The attestation entry points (with rollback on failure) never change
the model's verified flag. -/
theorem attest_is_verified (vt : VerificationType) (verifier mk : Pubkey)
    (m : ModelRegistry) (dh vm : String) (s : ℚ) (md rd : String)
    (now : Int) :
    (ModelOp.apply m (.attest vt verifier mk dh vm s md rd now)).is_verified
      = m.is_verified := by
  simp only [ModelOp.apply, verification_operations.verification_body]
  split_ifs <;> rfl

/-- Every core operation other than `verify_model` leaves the verified
flag exactly as it was. -/
theorem ModelOp_apply_verified_frame (m : ModelRegistry) (op : ModelOp)
    (hnv : ∀ n2 : Int, op ≠ .verify n2) :
    (ModelOp.apply m op).is_verified = m.is_verified := by
  cases op with
  | update caller nm ds vr hs ac pm now =>
    exact update_model_commit_is_verified m caller nm ds vr hs ac pm now
  | verify n2 => exact absurd rfl (hnv n2)
  | usage s now => exact record_usage_commit_is_verified m s now
  | contribute mk contributor ds ty imp perf hash now =>
    exact record_contribution_commit_is_verified m mk contributor ds ty imp
      perf hash now
  | approve c mk caller reward now =>
    exact approve_commit_is_verified c m mk caller reward now
  | reject c mk caller reason now => rfl
  | attest vt verifier mk dh vm s md rd now =>
    exact attest_is_verified vt verifier mk m dh vm s md rd now

/-- A verified model stays verified after any single core operation. -/
theorem ModelOp_apply_verified_mono (m : ModelRegistry) (op : ModelOp)
    (h : m.is_verified = true) :
    (ModelOp.apply m op).is_verified = true := by
  cases op with
  | update caller nm ds vr hs ac pm now =>
    exact (update_model_commit_is_verified m caller nm ds vr hs ac pm
      now).trans h
  | verify n2 => rfl
  | usage s now => exact (record_usage_commit_is_verified m s now).trans h
  | contribute mk contributor ds ty imp perf hash now =>
    exact (record_contribution_commit_is_verified m mk contributor ds ty imp
      perf hash now).trans h
  | approve c mk caller reward now =>
    exact (approve_commit_is_verified c m mk caller reward now).trans h
  | reject c mk caller reason now => exact h
  | attest vt verifier mk dh vm s md rd now =>
    exact (attest_is_verified vt verifier mk m dh vm s md rd now).trans h

/-- A verified model stays verified after any sequence of core
operations. -/
theorem ModelOp_applyAll_verified_mono (ops : List ModelOp) :
    ∀ m : ModelRegistry, m.is_verified = true →
      (ModelOp.applyAll m ops).is_verified = true := by
  induction ops with
  | nil => intro m h; exact h
  | cons op rest ih =>
    intro m h
    exact ih (ModelOp.apply m op) (ModelOp_apply_verified_mono m op h)

/-- Claim C10: the verified flag is monotone: `register_model` and
`create_derived_model` initialize it to false, `verify_model` is the only
operation that writes it (setting it to true), every other core operation
leaves it unchanged, and no sequence of core operations ever takes it
from true back to false. -/
theorem C10_is_verified_monotone (m : ModelRegistry) (op : ModelOp)
    (ops : List ModelOp) (authority parent_key : Pubkey)
    (nm ds vr ty hs pf : String) (ac : ℚ) (now : Int) :
    (∀ m2, register_model authority nm ds vr ty hs ac pf now = .ok m2 →
      m2.is_verified = false) ∧
    (∀ m2, create_derived_model authority parent_key nm ds vr ty hs ac pf
        now = .ok m2 → m2.is_verified = false) ∧
    (verify_model m now).is_verified = true ∧
    ((∀ n2 : Int, op ≠ .verify n2) →
      (ModelOp.apply m op).is_verified = m.is_verified) ∧
    (m.is_verified = true → (ModelOp.apply m op).is_verified = true) ∧
    (m.is_verified = true → (ModelOp.applyAll m ops).is_verified = true) := by
  refine ⟨?_, ?_, rfl, ?_, ?_, ?_⟩
  · intro m2 hok
    unfold model_operations.register_model at hok
    split_ifs at hok
    simp only [Except.ok.injEq] at hok
    rw [← hok]
  · intro m2 hok
    unfold model_operations.create_derived_model at hok
    split_ifs at hok
    simp only [Except.ok.injEq] at hok
    rw [← hok]
  · exact ModelOp_apply_verified_frame m op
  · exact ModelOp_apply_verified_mono m op
  · exact fun h => ModelOp_applyAll_verified_mono ops m h

/-- Witness for C10_is_verified_monotone: a freshly verified sample model
stays verified through a usage recording and through a usage-then-verify
sequence, and the usage operation leaves the flag untouched. -/
theorem C10_is_verified_monotone_witness :
    (ModelOp.apply (verify_model sampleModel 0)
      (.usage (1/2) 3)).is_verified = true ∧
    (ModelOp.applyAll (verify_model sampleModel 0)
      [.usage (1/2) 3, .verify 4]).is_verified = true ∧
    (ModelOp.apply (verify_model sampleModel 0) (.usage (1/2) 3)).is_verified
      = (verify_model sampleModel 0).is_verified :=
  ⟨(C10_is_verified_monotone (verify_model sampleModel 0) (.usage (1/2) 3)
      [.usage (1/2) 3, .verify 4] 1 2 "n" "d" "v" "t" "0123456789abcdef"
      "{}" (4/5) 0).2.2.2.2.1 rfl,
   (C10_is_verified_monotone (verify_model sampleModel 0) (.usage (1/2) 3)
      [.usage (1/2) 3, .verify 4] 1 2 "n" "d" "v" "t" "0123456789abcdef"
      "{}" (4/5) 0).2.2.2.2.2 rfl,
   (C10_is_verified_monotone (verify_model sampleModel 0) (.usage (1/2) 3)
      [.usage (1/2) 3, .verify 4] 1 2 "n" "d" "v" "t" "0123456789abcdef"
      "{}" (4/5) 0).2.2.2.1
     (fun n2 h => ModelOp.noConfusion h)⟩

end MediNex
